import Mathlib

/-!
Shallow embedding of the QA-Portal comment-to-structured-data extraction
pipeline and the failure-classification queries.

Sources embedded:
* `src/server/src/index.ts` — the smoke-test fact extractor inside the
  `trillianResults.map` callback (lines 221–331), the code-coverage parser
  (lines 342–373), the hypervisor/version normalization (lines 300–319),
  and the classification queries of `GET /api/prs/:prNumber/test-failures`
  and `GET /api/test-failures/summary` (lines 1204–1310).
* `src/scripts/scrape-github-prs.js` — `parseTestFailures` (lines 269–330).

JavaScript strings are modelled as `List Char`; the specific regular
expressions of the source are embedded as dedicated leftmost-match scanners
with the same backtracking behaviour.  JavaScript numbers that can be `NaN`
are modelled by the type `JFloat`.
-/

/-- JavaScript `\s` on the characters that occur in this code base:
space, tab, newline, carriage return, vertical tab, form feed. -/
def isWsC (c : Char) : Bool :=
  c = ' ' || c = '\t' || c = '\n' || c = '\x0d' || c = '\x0b' || c = '\x0c'

/-- JavaScript `\d`. -/
def isDigitC (c : Char) : Bool :=
  '0' ≤ c && c ≤ '9'

/-- JavaScript `\w`: ASCII letters, digits and underscore. -/
def isWordC (c : Char) : Bool :=
  isDigitC c || ('a' ≤ c && c ≤ 'z') || ('A' ≤ c && c ≤ 'Z') || c = '_'

/-- ASCII letter, i.e. the character class `[a-zA-Z]`. -/
def isLetterC (c : Char) : Bool :=
  ('a' ≤ c && c ≤ 'z') || ('A' ≤ c && c ≤ 'Z')

/-- ASCII lower-casing of one character, as JavaScript `toLowerCase`
acts on the ASCII inputs of this code base. -/
def lowC (c : Char) : Char :=
  if 'A' ≤ c && c ≤ 'Z' then Char.ofNat (c.toNat + 32) else c

/-- ASCII upper-casing of one character, as JavaScript `toUpperCase`
acts on the ASCII inputs of this code base. -/
def upC (c : Char) : Char :=
  if 'a' ≤ c && c ≤ 'z' then Char.ofNat (c.toNat - 32) else c

/-- Case-insensitive equality of characters. -/
def ciEqC (a b : Char) : Bool :=
  lowC a = lowC b

/-- If `pat` is a case-insensitive ASCII hit at the head of `s`,
return the rest of `s`; otherwise `none`. -/
def ciStrip : List Char → List Char → Option (List Char)
  | [], s => some s
  | _ :: _, [] => none
  | p :: ps, c :: cs => if ciEqC p c then ciStrip ps cs else none

/-- Case-sensitive literal strip. -/
def litStrip : List Char → List Char → Option (List Char)
  | [], s => some s
  | _ :: _, [] => none
  | p :: ps, c :: cs => if p = c then litStrip ps cs else none

/-- `pat` occurs as a contiguous substring of `s`
(JavaScript `String.prototype.includes`). -/
def hasSub (pat : List Char) : List Char → Bool
  | [] => (litStrip pat []).isSome
  | c :: cs => (litStrip pat (c :: cs)).isSome || hasSub pat cs

/-- Substring test lifted to `String`. -/
def strHas (s pat : String) : Bool :=
  hasSub pat.data s.data

/-- Numeric value of a digit string (JavaScript `parseInt` on an
all-digit capture). -/
def digitsVal (ds : List Char) : Nat :=
  ds.foldl (fun a c => 10 * a + (c.toNat - '0'.toNat)) 0

/-- Leftmost-match scanner: try the at-position matcher `m` at every
suffix of the input, left to right, and return the first hit. -/
def scanFor (m : List Char → Option α) : List Char → Option α
  | [] => m []
  | c :: cs =>
    match m (c :: cs) with
    | some a => some a
    | none => scanFor m cs

/-- At-position matcher for `\d+\s+W1\s+W2` (case-insensitive words):
a maximal digit run, one or more whitespace characters, the word `w1`,
one or more whitespace characters, the word `w2`.  Returns the parsed
number. -/
def numWordsAt (w1 w2 : List Char) (s : List Char) : Option Nat :=
  let ds := s.takeWhile isDigitC
  if ds = [] then none else
  let r1 := s.drop ds.length
  let sp1 := r1.takeWhile isWsC
  if sp1 = [] then none else
  match ciStrip w1 (r1.drop sp1.length) with
  | none => none
  | some r2 =>
    let sp2 := r2.takeWhile isWsC
    if sp2 = [] then none else
    match ciStrip w2 (r2.drop sp2.length) with
    | none => none
    | some _ => some (digitsVal ds)

/-- First match of `/(\d+)\s+look\s+OK/i` in the body
(`src/server/src/index.ts` line 229). -/
def lookOKOf (body : String) : Option Nat :=
  scanFor (numWordsAt ['l','o','o','k'] ['O','K']) body.data

/-- First match of `/(\d+)\s+have\s+errors/i` in the body
(`src/server/src/index.ts` line 230). -/
def haveErrorsOf (body : String) : Option Nat :=
  scanFor (numWordsAt ['h','a','v','e'] ['e','r','r','o','r','s']) body.data

/-- Character allowed inside the `[^\s)]+` run of the logs-URL pattern. -/
def nonWsParenC (c : Char) : Bool :=
  !(isWsC c) && c ≠ ')'

/-- Backtracking of `[^\s)]+\.zip`: find the largest split point `j ≥ 1`
of the greedy run such that `.zip` (case-insensitive) follows. -/
def zipBack (run : List Char) : Nat → Option Nat
  | 0 => none
  | j + 1 =>
    if (ciStrip ['.', 'z', 'i', 'p'] (run.drop (j + 1))).isSome then some (j + 1)
    else zipBack run j

/-- At-position matcher for `/https:\/\/[^\s)]+\.zip/i`; returns the whole
matched text (`match[0]`). -/
def zipAt (s : List Char) : Option String :=
  match ciStrip ['h', 't', 't', 'p', 's', ':', '/', '/'] s with
  | none => none
  | some r =>
    let run := r.takeWhile nonWsParenC
    match zipBack run run.length with
    | none => none
    | some j => some ⟨s.take 8 ++ run.take (j + 4)⟩

/-- First match of `/https:\/\/[^\s)]+\.zip/i` in the body
(`src/server/src/index.ts` lines 237–240). -/
def zipUrlOf (body : String) : Option String :=
  scanFor zipAt body.data

/-- JavaScript `String.prototype.split` with a one-character separator. -/
def splitOnC (sep : Char) : List Char → List (List Char)
  | [] => [[]]
  | c :: cs =>
    let r := splitOnC sep cs
    if c = sep then [] :: r
    else
      match r with
      | [] => [[c]]
      | h :: t => (c :: h) :: t

/-- JavaScript `String.prototype.trim` on the whitespace of this code base. -/
def trimC (s : List Char) : List Char :=
  ((s.dropWhile isWsC).reverse.dropWhile isWsC).reverse

/-- ASCII lower-casing of a character list. -/
def lowerL (s : List Char) : List Char :=
  s.map lowC

/-- `pat` is a literal head of `s`. -/
def startsWithC (pat s : List Char) : Bool :=
  (litStrip pat s).isSome

/-- The line list of a comment body (JavaScript `split('\n')`). -/
def linesOf (s : String) : List String :=
  (splitOnC '\n' s.data).map fun l => ⟨l⟩

/-- State of the permissive table scan of `src/server/src/index.ts`
lines 249–284: the `inTable` flag and the accumulated failed test names. -/
structure FTState where
  inTable : Bool
  tests : List String
deriving DecidableEq

/-- Header detection of the permissive scan (line 256):
the line contains `Test`, contains `Result` and contains a pipe. -/
def isHeaderLine (line : String) : Bool :=
  strHas line "Test" && strHas line "Result" && strHas line "|"

/-- Append a name to the accumulator unless it is already present
(the `!failedTests.includes(...)` guard of both collection sites). -/
def pushNew (acc : List String) (x : String) : List String :=
  if acc.contains x then acc else acc ++ [x]

/-- Row handling of the permissive scan (lines 267–281): split on `|`,
trim the cells, and append cell 0 when it starts with `test_` and cell 1
contains `error` or `fail` case-insensitively, deduplicating. -/
def ftRow (tests : List String) (line : String) : List String :=
  let columns := (splitOnC '|' line.data).map trimC
  if 2 ≤ columns.length then
    let testName := columns.getD 0 []
    let result := columns.getD 1 []
    if startsWithC ['t', 'e', 's', 't', '_'] testName &&
        (hasSub ['e', 'r', 'r', 'o', 'r'] (lowerL result) ||
          hasSub ['f', 'a', 'i', 'l'] (lowerL result)) then
      pushNew tests ⟨testName⟩
    else tests
  else tests

/-- One loop iteration of the permissive table scan (lines 254–284). -/
def ftStep (st : FTState) (line : String) : FTState :=
  if isHeaderLine line then ⟨true, st.tests⟩
  else if startsWithC ['-', '-', '-'] (trimC line.data) then st
  else if st.inTable && strHas line "|" then ⟨st.inTable, ftRow st.tests line⟩
  else if st.inTable && trimC line.data = [] then ⟨false, st.tests⟩
  else st

/-- The failed test names collected by the permissive table scan
over all lines of the comment. -/
def tableFailedTests (comment : String) : List String :=
  ((linesOf comment).foldl ftStep ⟨false, []⟩).tests

/-- Character class `[\s.]` of the fallback pattern. -/
def isSpDotC (c : Char) : Bool :=
  isWsC c || c = '.'

/-- The alternation `(?:ERROR|FAIL|FAILED)` (case-insensitive), in source
order; returns the number of characters consumed. -/
def kwAt (s : List Char) : Option Nat :=
  if (ciStrip ['E', 'R', 'R', 'O', 'R'] s).isSome then some 5
  else if (ciStrip ['F', 'A', 'I', 'L'] s).isSome then some 4
  else if (ciStrip ['F', 'A', 'I', 'L', 'E', 'D'] s).isSome then some 6
  else none

/-- Backtracking of `\w+` in `/(test_\w+)[\s.]*(?:ERROR|FAIL|FAILED)/gi`:
keep `k` word characters (largest first), then the greedy `[\s.]*` run,
then the keyword.  Returns the capture (`match[1]` in original case) and
the length of `match[0]`. -/
def tfTryK (s rest : List Char) : Nat → Option (List Char × Nat)
  | 0 => none
  | k + 1 =>
    let after := rest.drop (k + 1)
    let sp := after.takeWhile isSpDotC
    match kwAt (after.drop sp.length) with
    | some kl => some (s.take (5 + (k + 1)), 5 + (k + 1) + sp.length + kl)
    | none => tfTryK s rest k

/-- At-position matcher for `/(test_\w+)[\s.]*(?:ERROR|FAIL|FAILED)/gi`. -/
def tfMatchAt (s : List Char) : Option (List Char × Nat) :=
  match ciStrip ['t', 'e', 's', 't', '_'] s with
  | none => none
  | some rest =>
    let w := rest.takeWhile isWordC
    if w = [] then none else tfTryK s rest w.length

/-- Fuel-driven global `exec` loop of the fallback pattern: collect the
captures of the non-overlapping leftmost matches in order. -/
def tfScanAux : Nat → List Char → List String → List String
  | 0, _, acc => acc
  | _ + 1, [], acc => acc
  | fuel + 1, c :: cs, acc =>
    match tfMatchAt (c :: cs) with
    | some (name, len) => tfScanAux fuel ((c :: cs).drop len) (pushNew acc ⟨name⟩)
    | none => tfScanAux fuel cs acc

/-- The fallback failed-test extraction of `src/server/src/index.ts`
lines 287–295. -/
def fallbackFailedTests (comment : String) : List String :=
  tfScanAux comment.data.length comment.data []

/-- The full failed-test extraction (lines 249–296): the permissive table
scan, and the fallback pattern only when the scan yielded nothing. -/
def failedTestsOf (comment : String) : List String :=
  let t := tableFailedTests comment
  if t = [] then fallbackFailedTests comment else t

/-- JavaScript falsiness of a nullable string field: `null`, `undefined`
and the empty string are all falsy. -/
def jsFalsyStr : Option String → Option String
  | some "" => none
  | o => o

/-- ASCII upper-casing of a string (JavaScript `toUpperCase` on the ASCII
inputs of this code base). -/
def upperS (s : String) : String :=
  ⟨s.data.map upC⟩

/-- The match of `/^([a-z]+)(.+)$/i` on a hypervisor token
(`src/server/src/index.ts` line 305), with the regex backtracking made
explicit: the first group is the maximal ASCII-letter run, shrunk by one
character when it would swallow the whole token, and the second group may
not contain a line break. -/
def hvSplit (h : List Char) : Option (List Char × List Char) :=
  let L := h.takeWhile isLetterC
  if L = [] then none
  else
    let r := h.drop L.length
    if r = [] then
      if 2 ≤ h.length then some (h.take (h.length - 1), h.drop (h.length - 1))
      else none
    else if r.any (fun c => c = '\n' || c = '\x0d') then none
    else some (L, r)

/-- The hypervisor/version normalization of `src/server/src/index.ts`
lines 300–315: when no version is stored and the hypervisor token splits
into letters followed by a remainder containing a digit, the token is
split into hypervisor and version. -/
def normalizeHv : Option String → Option String → Option String × Option String
  | some h, none =>
    match hvSplit h.data with
    | some (name, ver) =>
      if ver.any isDigitC then (some ⟨name⟩, some (⟨ver⟩ : String))
      else (some h, none)
    | none => (some h, none)
  | h, v => (h, v)

/-- The display form `hypervisor?.toUpperCase() || 'UNKNOWN'`
(`src/server/src/index.ts` line 318). -/
def dispHv : Option String → String
  | none => "UNKNOWN"
  | some h => if upperS h = "" then "UNKNOWN" else upperS h

/-- One row of the `pr_trillian_comments` table as consumed by the
smoke-test extractor (nullable columns are `Option`). -/
structure TrillianRow where
  trillian_comment : Option String
  hypervisor : Option String
  version : Option String
  logs_url : Option String
  trillian_created_at : Option String
deriving DecidableEq

/-- The `SmokeTestResult` value built at `src/server/src/index.ts`
lines 317–327. -/
structure SmokeTestResult where
  hypervisor : String
  version : Option String
  passed : Nat
  total : Nat
  status : String
  logsUrl : Option String
  failedTests : Option (List String)
  createdAt : Option String
deriving DecidableEq

/-- The smoke-test fact extractor: the body of the `trillianResults.map`
callback of `src/server/src/index.ts` lines 221–331. -/
def extractSmokeTest (tr : TrillianRow) : Option SmokeTestResult :=
  let comment := tr.trillian_comment.getD ""
  let okM := lookOKOf comment
  let errM := haveErrorsOf comment
  let passed := okM.getD 0
  let total :=
    match okM, errM with
    | some p, some e => p + e
    | _, _ => 0
  let logsUrl :=
    match jsFalsyStr tr.logs_url with
    | some u => some u
    | none => zipUrlOf comment
  let failedTests :=
    match errM with
    | some e => if 0 < e then failedTestsOf comment else []
    | none => []
  if okM.isSome && 0 < total then
    let hv := normalizeHv (jsFalsyStr tr.hypervisor) (jsFalsyStr tr.version)
    some
      { hypervisor := dispHv hv.1
        version := jsFalsyStr hv.2
        passed := passed
        total := total
        status := match errM with
          | some e => if 0 < e then "FAIL" else "OK"
          | none => "OK"
        logsUrl := logsUrl
        failedTests := if failedTests = [] then none else some failedTests
        createdAt := tr.trillian_created_at }
  else none

/-- An exact decimal number `num / 10 ^ exp`, kept canonical (no trailing
zeros in `num` while `exp > 0`), used to model the decimal values that
JavaScript `parseFloat` produces in this code base. -/
structure Dec where
  num : Int
  exp : Nat
deriving DecidableEq

/-- Canonicalize `n / 10 ^ e` by stripping factors of ten. -/
def decNorm : Int → Nat → Dec
  | n, 0 => ⟨n, 0⟩
  | n, e + 1 => if n % 10 = 0 then decNorm (n / 10) e else ⟨n, e + 1⟩

/-- The rational value denoted by a `Dec`. -/
def Dec.toRat (d : Dec) : ℚ :=
  (d.num : ℚ) / (10 : ℚ) ^ d.exp

/-- A JavaScript `number` that may be `NaN` (exact decimals otherwise). -/
inductive JFloat where
  | nan : JFloat
  | val : Dec → JFloat
deriving DecidableEq

/-- Negation of a JavaScript number. -/
def JFloat.neg : JFloat → JFloat
  | .nan => .nan
  | .val d => .val ⟨-d.num, d.exp⟩

/-- JavaScript `parseFloat` on the strings this code base feeds it:
optional leading whitespace, an optional sign, integer digits, an optional
dot with fractional digits; `NaN` when no digit is found. -/
def jsParseFloat (s : List Char) : JFloat :=
  let s1 := s.dropWhile isWsC
  let sgn : Int := if s1.headD ' ' = '-' then -1 else 1
  let s2 := if s1.headD ' ' = '-' || s1.headD ' ' = '+' then s1.tail else s1
  let a := s2.takeWhile isDigitC
  let s3 := s2.drop a.length
  let b : List Char :=
    if s3.headD ' ' = '.' then s3.tail.takeWhile isDigitC else []
  if a = [] && b = [] then .nan
  else .val (decNorm (sgn * ((digitsVal a : Int) * 10 ^ b.length + (digitsVal b : Int))) b.length)

/-- One parsed row of `parseTestFailures` in
`src/scripts/scrape-github-prs.js`. -/
structure TFRow where
  test_name : String
  result : String
  time_seconds : Option JFloat
  test_file : String
deriving DecidableEq

/-- First match of `/([\d.]+)/` in a time cell: the leftmost maximal run
of digits and dots. -/
def timeTokenOf : List Char → Option (List Char)
  | [] => none
  | c :: cs =>
    if isDigitC c || c = '.' then some ((c :: cs).takeWhile fun d => isDigitC d || d = '.')
    else timeTokenOf cs

/-- Build the row stored by `parseTestFailures` from the four trimmed
cells: backticks are removed from the result cell and the time is
`parseFloat` of the first `[\d.]+` token of the time cell. -/
def mkTFRow (tn result timeStr tf : List Char) : TFRow :=
  { test_name := ⟨tn⟩
    result := ⟨result.filter (fun c => c ≠ '`')⟩
    time_seconds := (timeTokenOf timeStr).map jsParseFloat
    test_file := ⟨tf⟩ }

/-- The loop of `parseTestFailures` (`src/scripts/scrape-github-prs.js`
lines 278–330): strict header `Test | Result | Time`, separator lines
containing `---`, data rows of at least 4 cells whose first cell is
neither empty nor `Test`, early stop at a blank line once the separator
has been passed. -/
def ptfLoop : Bool → Bool → List TFRow → List String → List TFRow
  | _, _, acc, [] => acc
  | inTable, headerPassed, acc, line :: rest =>
    if strHas line "Test | Result | Time" then ptfLoop true headerPassed acc rest
    else if inTable && strHas line "---" then ptfLoop inTable true acc rest
    else
      let acc' :=
        if inTable && headerPassed && strHas line "|" then
          let parts := (splitOnC '|' line.data).map trimC
          if 4 ≤ parts.length then
            let tn := parts.getD 0 []
            if tn = [] || tn = "Test".data then acc
            else acc ++ [mkTFRow tn (parts.getD 1 []) (parts.getD 2 []) (parts.getD 3 [])]
          else acc
        else acc
      if inTable && headerPassed && trimC line.data = [] then acc'
      else ptfLoop inTable headerPassed acc' rest

/-- `parseTestFailures` of `src/scripts/scrape-github-prs.js`
lines 269–330 (a falsy comment yields no rows). -/
def parseTestFailures (comment : Option String) : List TFRow :=
  match jsFalsyStr comment with
  | none => []
  | some c => ptfLoop false false [] (linesOf c)

/-- At-position matcher for `(\d+\.?\d*)%`: integer digits, an optional
dot with a greedy fractional run (backtracked to empty when needed), then
the percent sign.  Returns the decimal value of the capture. -/
def pctAt (s : List Char) : Option Dec :=
  let a := s.takeWhile isDigitC
  if a = [] then none
  else
    match s.drop a.length with
    | '%' :: _ => some (decNorm (digitsVal a) 0)
    | '.' :: r2 =>
      let b := r2.takeWhile isDigitC
      if (r2.drop b.length).headD ' ' = '%' then
        some (decNorm ((digitsVal a : Int) * 10 ^ b.length + (digitsVal b : Int)) b.length)
      else if r2.headD ' ' = '%' then some (decNorm (digitsVal a) 0)
      else none
    | _ => none

/-- At-position matcher for `([+-]\d+\.?\d*)%`. -/
def signedPctAt (s : List Char) : Option Dec :=
  match s with
  | [] => none
  | c :: rest =>
    if c = '+' || c = '-' then
      (pctAt rest).map fun d => if c = '-' then ⟨-d.num, d.exp⟩ else d
    else none

/-- At-position matcher for `/(increased|decreased)\s+by\s+(\d+\.?\d*)%/i`;
returns the first capture in its original case and the value of the
second capture. -/
def phraseAt (s : List Char) : Option (String × Dec) :=
  if (ciStrip "increased".data s).isSome || (ciStrip "decreased".data s).isSome then
    let r1 := s.drop 9
    let sp1 := r1.takeWhile isWsC
    if sp1 = [] then none
    else
      match ciStrip ['b', 'y'] (r1.drop sp1.length) with
      | none => none
      | some r2 =>
        let sp2 := r2.takeWhile isWsC
        if sp2 = [] then none
        else
          match pctAt (r2.drop sp2.length) with
          | none => none
          | some d => some (⟨s.take 9⟩, d)
  else none

/-- At-position matcher for
`/(https?:\/\/(?:app\.)?codecov\.io\/[^\s)]+)/i`. -/
def codecovUrlAt (s : List Char) : Option String :=
  match ciStrip ['h', 't', 't', 'p'] s with
  | none => none
  | some r0 =>
    let r1 := match r0 with
      | c :: rest => if ciEqC c 's' then rest else r0
      | [] => r0
    match ciStrip [':', '/', '/'] r1 with
    | none => none
    | some r2 =>
      let r3 := match ciStrip ['a', 'p', 'p', '.'] r2 with
        | some rr => rr
        | none => r2
      match ciStrip ['c', 'o', 'd', 'e', 'c', 'o', 'v', '.', 'i', 'o', '/'] r3 with
      | none => none
      | some r4 =>
        let run := r4.takeWhile nonWsParenC
        if run = [] then none
        else some ⟨s.take (s.length - r4.length + run.length)⟩

/-- The code-coverage fact assembled at `src/server/src/index.ts`
lines 366–372. -/
structure CoverageFact where
  percentage : Dec
  change : JFloat
  url : String
deriving DecidableEq

/-- The code-coverage parser of `src/server/src/index.ts` lines 342–373
(`prNumber` feeds the constructed fallback URL). -/
def extractCoverage (body : String) (prNumber : Nat) : Option CoverageFact :=
  let coverageM := scanFor pctAt body.data
  let signedM := scanFor signedPctAt body.data
  let phraseM := scanFor phraseAt body.data
  let urlM := scanFor codecovUrlAt body.data
  match coverageM with
  | none => none
  | some p =>
    let change : JFloat :=
      match signedM with
      | some d => .val d
      | none =>
        match phraseM with
        | some (w, d) =>
          if w = "increased" || w = "decreased" then
            if w = "decreased" then .val ⟨-d.num, d.exp⟩ else .val d
          else jsParseFloat w.data
        | none => .val ⟨0, 0⟩
    some ⟨p, change,
      urlM.getD ("https://app.codecov.io/gh/apache/cloudstack/pull/" ++ toString prNumber)⟩

/-- One row of the `test_results` table as used by the classification
queries (only the columns they read). -/
structure TestResultRow where
  pr_number : Nat
  test_name : String
  test_file : String
deriving DecidableEq

/-- `SELECT COUNT(DISTINCT pr_number) FROM test_results WHERE
test_name = ? AND pr_number != ?` — the per-failure subquery of
`GET /api/prs/:prNumber/test-failures` (`src/server/src/index.ts`
lines 1221–1227). -/
def countOtherPRs (recs : List TestResultRow) (t : String) (p : Nat) : Nat :=
  (((recs.filter fun r => decide (r.test_name = t ∧ r.pr_number ≠ p)).map
      fun r => r.pr_number).dedup).length

/-- The classification attached to one failure by the per-PR endpoint. -/
structure Classified where
  occurrence_count : Nat
  is_common : Bool
  severity : String
deriving DecidableEq

/-- The classification loop of `GET /api/prs/:prNumber/test-failures`
(`src/server/src/index.ts` lines 1219–1233): `is_common` when seen in two
or more other PRs, `occurrence_count` including this PR. -/
def classifyFailure (recs : List TestResultRow) (t : String) (p : Nat) : Classified :=
  let other := countOtherPRs recs t p
  ⟨other + 1, decide (2 ≤ other), if 2 ≤ other then "low" else "high"⟩

/-- The correlated subquery of `recentFailures` in
`GET /api/test-failures/summary` (`src/server/src/index.ts`
lines 1278–1283): distinct other PRs with the same test name. -/
def recentOtherPRCount (recs : List TestResultRow) (t : String) (p : Nat) : Nat :=
  (((recs.filter fun r => decide (r.test_name = t ∧ r.pr_number ≠ p)).map
      fun r => r.pr_number).dedup).length

/-- The `is_common` flag of `recentFailures` (lines 1289–1291). -/
def recentIsCommon (recs : List TestResultRow) (t : String) (p : Nat) : Bool :=
  decide (2 ≤ recentOtherPRCount recs t p)

/-- `COUNT(DISTINCT pr_number)` of one `(test_name, test_file)` group of
the `commonFailures` query (lines 1257–1270). -/
def groupPRCount (recs : List TestResultRow) (t f : String) : Nat :=
  (((recs.filter fun r => decide (r.test_name = t ∧ r.test_file = f)).map
      fun r => r.pr_number).dedup).length

/-- The `HAVING pr_count > 2` filter of the `commonFailures` listing. -/
def commonListed (recs : List TestResultRow) (t f : String) : Bool :=
  decide (2 < groupPRCount recs t f)

/-- Modelled from the spec: the skipped-count token "`<N> did not run`" of
§4.2 step 2, which has no counterpart anywhere in the repository's code;
embedded in the same shape as the other two token patterns,
`/(\d+)\s+did\s+not\s+run/i`. -/
def didNotRunAt (s : List Char) : Option Nat :=
  let ds := s.takeWhile isDigitC
  if ds = [] then none
  else
    let r1 := s.drop ds.length
    let sp1 := r1.takeWhile isWsC
    if sp1 = [] then none
    else
      match ciStrip ['d', 'i', 'd'] (r1.drop sp1.length) with
      | none => none
      | some r2 =>
        let sp2 := r2.takeWhile isWsC
        if sp2 = [] then none
        else
          match ciStrip ['n', 'o', 't'] (r2.drop sp2.length) with
          | none => none
          | some r3 =>
            let sp3 := r3.takeWhile isWsC
            if sp3 = [] then none
            else
              match ciStrip ['r', 'u', 'n'] (r3.drop sp3.length) with
              | none => none
              | some _ => some (digitsVal ds)

/-- Modelled from the spec: first match of the skipped token in a body. -/
def didNotRunOf (body : String) : Option Nat :=
  scanFor didNotRunAt body.data

/-- Modelled from the spec: the fallback failed-test pattern of §4.2
step 8 restricted so that the keyword follows "within the same line" —
the scan is applied to each line separately and can never match across a
line break. -/
def sameLineFallback (comment : String) : List String :=
  (linesOf comment).foldl
    (fun acc line => (tfScanAux line.data.length line.data []).foldl pushNew acc) []

/-- The three-record scenario of claim C1: `test_x` failing in PRs 1, 2
and 3, every record sharing one test file. -/
def c1recs : List TestResultRow :=
  [⟨1, "test_x", "f.py"⟩, ⟨2, "test_x", "f.py"⟩, ⟨3, "test_x", "f.py"⟩]

/-- The two-table comment of claim C10: a first table yielding `test_a`,
a blank line, loose text, then a second table repeating `test_a` and
adding `test_b`. -/
def c10body : String :=
  "Test | Result | Time (s) | Test File\n--- | ---\ntest_a | `Error` | 1.0 | a.py\n\ntest_zzz | `Error` | 1 | z.py\nTest | Result | Time (s) | Test File\n--- | ---\ntest_a | `Error` | 1.0 | a.py\ntest_b | `Failure` | 2.0 | b.py"

/-- The body of the C5 counterexample: a positive errors count, no table,
and a `test_` name whose failure keyword sits on the next line. -/
def c5cex : String := "1 look OK, 2 have errors\ntest_foo\nFAIL"

/-- The claim C5 scenario body: `"90 look OK, 3 have errors"` plus a
markdown table with rows for `test_foo` (result `` `Error` ``) and
`test_bar` (result `` `Failure` ``). -/
def c5scenario : String :=
  "90 look OK, 3 have errors\nTest | Result | Time (s) | Test File\n--- | --- | --- | ---\ntest_foo | `Error` | 1.2 | test_foo.py\ntest_bar | `Failure` | 0.5 | test_bar.py"

/-- The representative comment of the amended C6: a good row, a row with
a token-free time cell, a row containing `---` (consumed as a separator),
a thin row, a blank line, and a row after the blank line. -/
def c6comment : String :=
  "Test | Result | Time (s) | Test File\n--- | --- | --- | ---\ntest_a | `Error` | 1.10 | test_a.py\ntest_b | Failure | abc | test_b.py\ntest_d | `Error` | --- | d.py\nshort | row\n\ntest_c | `Error` | 2 | c.py"

/-- The mixed-file records of claim C4: `test_x` stored with file `a.py`
in PRs 1 and 2 and with file `b.py` in PR 3. -/
def c4recs : List TestResultRow :=
  [⟨1, "test_x", "a.py"⟩, ⟨2, "test_x", "a.py"⟩, ⟨3, "test_x", "b.py"⟩]

/-- The single-file records used to witness the C4 coincidence rule. -/
def c4single : List TestResultRow :=
  [⟨1, "test_x", "f.py"⟩, ⟨2, "test_x", "f.py"⟩, ⟨3, "test_x", "f.py"⟩]

/-- C1 counterexample: with `TestFailureRecord`s for `test_x` in PRs 1, 2
and 3, classifying `test_x` for PR 1 reports `occurrence_count = 3`, not
the count 2 of distinct other PRs — the endpoint adds one for the PR's own
record. -/
theorem C1_counterexample :
    (classifyFailure c1recs "test_x" 1).occurrence_count = 3 ∧
    countOtherPRs c1recs "test_x" 1 = 2 ∧ (3 : Nat) ≠ 2 := by decide

/-- C1 (amended): the reported `occurrence_count` is the number of
distinct other PRs sharing the test name plus one for the PR's own
record; the PR's own records never contribute to the other-PR count; in
the three-PR scenario the endpoint reports `occurrence_count = 3` with
`is_common = true` and `severity = "low"`. -/
theorem C1_amended :
    (∀ recs t p, (classifyFailure recs t p).occurrence_count = countOtherPRs recs t p + 1) ∧
    (∀ recs t f p, countOtherPRs (⟨p, t, f⟩ :: recs) t p = countOtherPRs recs t p) ∧
    classifyFailure c1recs "test_x" 1 = ⟨3, true, "low"⟩ := by
  refine ⟨fun recs t p => rfl, fun recs t f p => ?_, by decide⟩
  simp [countOtherPRs]

/-- C2 counterexample: the body `"0 look OK"` contains the anchor pattern
(`lookOKOf` matches with value 0), yet the extractor returns `none`
because no `have errors` token is present and so `total = 0`. -/
theorem C2_counterexample :
    lookOKOf "0 look OK" = some 0 ∧
    extractSmokeTest ⟨some "0 look OK", some "kvm", none, none, none⟩ = none := by decide

/-- C2 (amended): the extractor returns `none` exactly when it is not the
case that both the `<N> look OK` anchor and the `<N> have errors` token
are present with `passed + errors > 0`; the anchor alone never suffices. -/
theorem C2_amended (tr : TrillianRow) :
    extractSmokeTest tr = none ↔
      ¬ ∃ p e, lookOKOf (tr.trillian_comment.getD "") = some p ∧
        haveErrorsOf (tr.trillian_comment.getD "") = some e ∧ 0 < p + e := by
  unfold extractSmokeTest
  cases hok : lookOKOf (tr.trillian_comment.getD "") <;>
    cases herr : haveErrorsOf (tr.trillian_comment.getD "") <;>
      simp [hok, herr]

/-- C3 counterexample: with `"5 look OK, 3 have errors, 2 did not run"`
the extractor returns `total = 8 = passed + errors`; the skipped token
`2 did not run` (present per the spec-modelled matcher) is ignored, so the
claimed `total = passed + errors + skipped = 10` is wrong. -/
theorem C3_counterexample :
    extractSmokeTest ⟨some "5 look OK, 3 have errors, 2 did not run", some "kvm", none, none, none⟩ =
      some ⟨"KVM", none, 5, 8, "FAIL", none, none, none⟩ ∧
    didNotRunOf "5 look OK, 3 have errors, 2 did not run" = some 2 ∧
    (8 : Nat) ≠ 5 + 3 + 2 := by decide

/-- C3 (amended): every fact the extractor accepts has both tokens
present, `passed` equal to the anchor value, `total = passed + errors`
always (a `did not run` token is never consulted; without the errors token
no fact is returned at all), and `status = "FAIL"` iff `errors > 0`; the
body `"141 look OK, 0 have errors"` yields passed 141, total 141,
status OK. -/
theorem C3_amended :
    (∀ tr f, extractSmokeTest tr = some f →
      ∃ p e, lookOKOf (tr.trillian_comment.getD "") = some p ∧
        haveErrorsOf (tr.trillian_comment.getD "") = some e ∧
        f.passed = p ∧ f.total = p + e ∧
        (f.status = "FAIL" ↔ 0 < e) ∧ (f.status = "OK" ↔ e = 0)) ∧
    extractSmokeTest ⟨some "141 look OK, 0 have errors", some "kvm", none, none, none⟩ =
      some ⟨"KVM", none, 141, 141, "OK", none, none, none⟩ := by
  refine ⟨fun tr f h => ?_, by decide⟩
  unfold extractSmokeTest at h
  cases hok : lookOKOf (tr.trillian_comment.getD "") <;>
    cases herr : haveErrorsOf (tr.trillian_comment.getD "") <;>
      simp [hok, herr] at h
  obtain ⟨htot, hf⟩ := h
  refine ⟨_, _, rfl, rfl, ?_⟩
  subst hf
  simp
  omega

/-- C3 amended, witness: the general part applied to the concrete body
`"141 look OK, 0 have errors"`. -/
theorem C3_amended_witness :
    ∃ p e, lookOKOf "141 look OK, 0 have errors" = some p ∧
      haveErrorsOf "141 look OK, 0 have errors" = some e ∧
      (141 : Nat) = p ∧ (141 : Nat) = p + e ∧
      (("OK" : String) = "FAIL" ↔ 0 < e) ∧ (("OK" : String) = "OK" ↔ e = 0) :=
  C3_amended.1 ⟨some "141 look OK, 0 have errors", some "kvm", none, none, none⟩
    ⟨"KVM", none, 141, 141, "OK", none, none, none⟩ (by decide)

/-- C9: a returned smoke-test fact never carries an empty `failedTests`
list — when zero names are recovered the field is absent (`none`), as the
`failedTests.length > 0 ? failedTests : undefined` ternary guarantees. -/
theorem C9_no_empty_failedTests (tr : TrillianRow) (f : SmokeTestResult)
    (h : extractSmokeTest tr = some f) : f.failedTests ≠ some [] := by
  unfold extractSmokeTest at h
  cases hok : lookOKOf (tr.trillian_comment.getD "") <;>
    cases herr : haveErrorsOf (tr.trillian_comment.getD "") <;>
      simp [hok, herr] at h
  obtain ⟨hpos, hf⟩ := h
  subst hf
  split <;> simp_all

/-- C9 witness: a concrete accepted fact with a positive errors count and
no recoverable names has `failedTests = none`, hence not `some []`. -/
theorem C9_no_empty_failedTests_witness :
    (⟨"KVM", none, 1, 2, "FAIL", none, none, none⟩ : SmokeTestResult).failedTests ≠ some [] :=
  C9_no_empty_failedTests ⟨some "1 look OK, 1 have errors", some "kvm", none, none, none⟩
    ⟨"KVM", none, 1, 2, "FAIL", none, none, none⟩ (by decide)

/-- C10: in the permissive scan a blank line only clears the `inTable`
flag (never ends the scan), any later line containing `Test`, `Result`
and a pipe re-enters table mode, and the rows of the second table are
appended to the same deduplicated list — while rows outside any table
(such as `test_zzz` above) are ignored. -/
theorem C10_second_table :
    (∀ st : FTState, ftStep st "" = ⟨false, st.tests⟩) ∧
    (∀ st line, isHeaderLine line = true → ftStep st line = ⟨true, st.tests⟩) ∧
    failedTestsOf c10body = ["test_a", "test_b"] := by
  refine ⟨fun st => ?_, fun st line h => ?_, by decide⟩
  · obtain ⟨b, ts⟩ := st
    cases b <;> rfl
  · unfold ftStep
    rw [h]
    simp

/-- C10 witness: the header-line step applied to a concrete header. -/
theorem C10_second_table_witness :
    ftStep ⟨false, ["test_a"]⟩ "Test | Result | Time (s) | Test File" = ⟨true, ["test_a"]⟩ :=
  C10_second_table.2.1 ⟨false, ["test_a"]⟩ "Test | Result | Time (s) | Test File" (by decide)

theorem pushNew_nodup {acc : List String} (h : acc.Nodup) (x : String) :
    (pushNew acc x).Nodup := by
  unfold pushNew
  split
  · exact h
  · next hc =>
    have hx : x ∉ acc := by simpa using hc
    simp [List.nodup_append, h, hx]

theorem ftRow_nodup {ts : List String} (h : ts.Nodup) (line : String) :
    (ftRow ts line).Nodup := by
  unfold ftRow
  dsimp only
  split
  · split
    · exact pushNew_nodup h _
    · exact h
  · exact h

theorem ftStep_nodup {st : FTState} (h : st.tests.Nodup) (line : String) :
    (ftStep st line).tests.Nodup := by
  unfold ftStep
  split
  · exact h
  · split
    · exact h
    · split
      · exact ftRow_nodup h _
      · split
        · exact h
        · exact h

theorem foldl_ftStep_nodup :
    ∀ (ls : List String) (st : FTState), st.tests.Nodup → ((ls.foldl ftStep st).tests).Nodup
  | [], _, h => h
  | l :: ls, st, h => foldl_ftStep_nodup ls (ftStep st l) (ftStep_nodup h l)

theorem tfScanAux_nodup :
    ∀ (fuel : Nat) (s : List Char) (acc : List String), acc.Nodup → (tfScanAux fuel s acc).Nodup := by
  intro fuel
  induction fuel with
  | zero => intro s acc h; exact h
  | succ n ih =>
    intro s acc h
    cases s with
    | nil => exact h
    | cons c cs =>
      unfold tfScanAux
      split
      · exact ih _ _ (pushNew_nodup h _)
      · exact ih _ _ h

theorem failedTests_nodup (c : String) : (failedTestsOf c).Nodup := by
  unfold failedTestsOf
  dsimp only
  split
  · exact tfScanAux_nodup _ _ _ List.nodup_nil
  · unfold tableFailedTests
    exact foldl_ftStep_nodup _ _ List.nodup_nil

/-- C5 counterexample: the fallback separator `[\s.]*` matches the line
break, so the extractor reports `failedTests = ["test_foo"]` even though
the table scan finds nothing and no `test_\w+` is followed by a failure
keyword within the same line (the spec-modelled same-line fallback is
empty). -/
theorem C5_counterexample :
    extractSmokeTest ⟨some c5cex, some "kvm", none, none, none⟩ =
      some ⟨"KVM", none, 1, 3, "FAIL", none, some ["test_foo"], none⟩ ∧
    tableFailedTests c5cex = [] ∧
    sameLineFallback c5cex = [] := by decide

/-- C5 (amended): the failed-test names come from table rows whose cell 0
starts with `test_` and whose cell 1 contains `error` or `fail`
case-insensitively, deduplicated in first-seen order (the result is always
duplicate-free); the looser `test_\w+` pattern is consulted exactly when
the table scan yields nothing, and its `[\s.]*` separator may span line
breaks; the scenario body yields passed 90, total 93, status FAIL and
`failedTests = ["test_foo", "test_bar"]`. -/
theorem C5_amended :
    (∀ c, tableFailedTests c ≠ [] → failedTestsOf c = tableFailedTests c) ∧
    (∀ c, tableFailedTests c = [] → failedTestsOf c = fallbackFailedTests c) ∧
    (∀ c, (failedTestsOf c).Nodup) ∧
    extractSmokeTest ⟨some c5scenario, some "kvm", none, none, none⟩ =
      some ⟨"KVM", none, 90, 93, "FAIL", none, some ["test_foo", "test_bar"], none⟩ := by
  refine ⟨fun c h => ?_, fun c h => ?_, failedTests_nodup, by decide⟩
  · simp [failedTestsOf, h]
  · simp [failedTestsOf, h]

/-- C5 amended, witness: the table branch on the scenario body and the
fallback branch on the cross-line body. -/
theorem C5_amended_witness :
    failedTestsOf c5scenario = tableFailedTests c5scenario ∧
    failedTestsOf c5cex = fallbackFailedTests c5cex :=
  ⟨C5_amended.1 c5scenario (by decide), C5_amended.2.1 c5cex (by decide)⟩

/-- C6 counterexample: after the strict header and a separator, the line
`" | \x60Error\x60 | 1.0 | file.py"` splits into 4 trimmed cells, yet
`parseTestFailures` yields no row for it because its first cell is empty
— an extra skip condition the claim omits. -/
theorem C6_counterexample :
    (((splitOnC '|' (" | `Error` | 1.0 | file.py" : String).data).map trimC).length = 4) ∧
    parseTestFailures
        (some "Test | Result | Time (s) | Test File\n--- | --- | ---\n | `Error` | 1.0 | file.py") =
      [] := by decide

/-- C6 (amended): in `parseTestFailures`, once the literal
`Test | Result | Time` header and a separator have been passed, a line
yields a row exactly when it contains a pipe, splits into at least 4
trimmed cells, contains no `---` anywhere (such lines are consumed as
separators), and its first cell is neither empty nor the literal `Test`;
the row keeps cell 0 as the name, cell 1 with backticks removed, the
`parseFloat` of the first `[\d.]+` token of cell 2 (absent when there is
no token), and cell 3; thinner lines are skipped silently; scanning stops
at the first blank line after the separator, or at end of input. -/
theorem C6_amended :
    (∀ (acc : List TFRow) rest, ptfLoop true true acc ("" :: rest) = acc) ∧
    (∀ (acc : List TFRow) rest line,
      strHas line "Test | Result | Time" = false → strHas line "---" = false →
      ((splitOnC '|' line.data).map trimC).length < 4 → trimC line.data ≠ [] →
      ptfLoop true true acc (line :: rest) = ptfLoop true true acc rest) ∧
    (∀ (acc : List TFRow) rest line,
      strHas line "Test | Result | Time" = false → strHas line "---" = false →
      strHas line "|" = true →
      4 ≤ ((splitOnC '|' line.data).map trimC).length →
      ((splitOnC '|' line.data).map trimC).getD 0 [] ≠ [] →
      ((splitOnC '|' line.data).map trimC).getD 0 [] ≠ ("Test" : String).data →
      trimC line.data ≠ [] →
      ptfLoop true true acc (line :: rest) =
        ptfLoop true true
          (acc ++ [mkTFRow (((splitOnC '|' line.data).map trimC).getD 0 [])
            (((splitOnC '|' line.data).map trimC).getD 1 [])
            (((splitOnC '|' line.data).map trimC).getD 2 [])
            (((splitOnC '|' line.data).map trimC).getD 3 [])]) rest) ∧
    parseTestFailures (some c6comment) =
      [⟨"test_a", "Error", some (.val ⟨11, 1⟩), "test_a.py"⟩,
        ⟨"test_b", "Failure", none, "test_b.py"⟩] := by
  refine ⟨fun acc rest => rfl, fun acc rest line hH hS hP hB => ?_,
    fun acc rest line hH hS hpipe h4 h0 hT hB => ?_, by decide⟩
  · have h4 : ¬ (4 ≤ ((splitOnC '|' line.data).map trimC).length) := Nat.not_le.mpr hP
    cases hpipe : strHas line "|" <;> simp only [ptfLoop, hH, hS, hB, hpipe, h4] <;> simp [hB, h4]
  · simp only [ptfLoop, hH, hS, hpipe, hB]
    simp_all

/-- C6 amended, witness: the skip step on a thin line and the yield step
on a well-formed row. -/
theorem C6_amended_witness :
    ptfLoop true true [] ("short | row" :: ["x | y | z | w"]) =
      ptfLoop true true [] ["x | y | z | w"] ∧
    ptfLoop true true [] ["test_a | `Error` | 1.10 | test_a.py"] =
      ptfLoop true true
        [mkTFRow "test_a".data "`Error`".data "1.10".data "test_a.py".data] [] := by
  constructor
  · exact C6_amended.2.1 [] ["x | y | z | w"] "short | row" (by decide) (by decide) (by decide) (by decide)
  · exact C6_amended.2.2.1 [] [] "test_a | `Error` | 1.10 | test_a.py" (by decide) (by decide)
      (by decide) (by decide) (by decide) (by decide) (by decide)

theorem letter_not_digit {c : Char} (h : isLetterC c = true) : isDigitC c = false := by
  unfold isLetterC at h
  unfold isDigitC
  simp only [Bool.or_eq_true, Bool.and_eq_true, decide_eq_true_eq] at h
  rcases h with ⟨h1, _⟩ | ⟨h1, _⟩ <;>
  · have h9 : ¬ (c ≤ '9') := fun hle => absurd (le_trans h1 hle) (by decide)
    simp [h9]

theorem hvSplit_no_newline (h : List Char) (hnl : ∀ c ∈ h, c ≠ '\n' ∧ c ≠ '\x0d') :
    hvSplit h =
      if h.takeWhile isLetterC = [] then none
      else if h.drop (h.takeWhile isLetterC).length = [] then
        (if 2 ≤ h.length then some (h.take (h.length - 1), h.drop (h.length - 1)) else none)
      else some (h.takeWhile isLetterC, h.drop (h.takeWhile isLetterC).length) := by
  unfold hvSplit
  dsimp only
  by_cases hL : h.takeWhile isLetterC = []
  · simp [hL]
  · by_cases hr : h.drop (h.takeWhile isLetterC).length = []
    · simp [hL, hr]
    · have hno : (h.drop (h.takeWhile isLetterC).length).any (fun c => c = '\n' || c = '\x0d') = false := by
        simp only [List.any_eq_false]
        intro c hc
        obtain ⟨h1, h2⟩ := hnl c (List.mem_of_mem_drop hc)
        simp [h1, h2]
      simp [hL, hr, hno]

theorem allLetters_drop_no_digit {h : List Char} (hall : h.takeWhile isLetterC = h)
    (k : Nat) : (h.drop k).any isDigitC = false := by
  simp only [List.any_eq_false]
  intro c hc
  have hm : c ∈ h := List.mem_of_mem_drop hc
  rw [← hall] at hm
  simp [letter_not_digit (List.mem_takeWhile_imp hm)]

/-- C7: the hypervisor/version normalizer splits a token with no stored
version into its leading letters and the trailing remainder exactly when
that remainder is nonempty and contains a digit (tokens hold no line
breaks); display upper-cases the hypervisor; fixtures: `xcpng82` maps to
`(XCPNG, 82)`, `vmware70u3` to `(VMWARE, 70u3)`, and `kvm` stays
`(KVM, no version)`. -/
theorem C7_normalizer :
    normalizeHv (some "xcpng82") none = (some "xcpng", some "82") ∧
    dispHv (some "xcpng") = "XCPNG" ∧
    normalizeHv (some "vmware70u3") none = (some "vmware", some "70u3") ∧
    dispHv (some "vmware") = "VMWARE" ∧
    normalizeHv (some "kvm") none = (some "kvm", none) ∧
    dispHv (some "kvm") = "KVM" ∧
    (∀ h : String, (∀ c ∈ h.data, c ≠ '\n' ∧ c ≠ '\x0d') →
      (((normalizeHv (some h) none).2.isSome = true) ↔
        (h.data.takeWhile isLetterC ≠ [] ∧
          h.data.drop (h.data.takeWhile isLetterC).length ≠ [] ∧
          (h.data.drop (h.data.takeWhile isLetterC).length).any isDigitC = true)) ∧
      ((normalizeHv (some h) none).2.isSome = true →
        normalizeHv (some h) none =
          (some ⟨h.data.takeWhile isLetterC⟩,
            some ⟨h.data.drop (h.data.takeWhile isLetterC).length⟩))) := by
  refine ⟨by decide, by decide, by decide, by decide, by decide, by decide, fun h hnl => ?_⟩
  have hsplit := hvSplit_no_newline h.data hnl
  by_cases hL : h.data.takeWhile isLetterC = []
  · simp [normalizeHv, hsplit, hL]
  · by_cases hr : h.data.drop (h.data.takeWhile isLetterC).length = []
    · have hle : h.data.length ≤ (h.data.takeWhile isLetterC).length :=
        List.drop_eq_nil_iff.mp hr
      have hge := (List.takeWhile_prefix (l := h.data) isLetterC).length_le
      have hall : h.data.takeWhile isLetterC = h.data :=
        (List.takeWhile_prefix _).eq_of_length (by omega)
      by_cases hlen : 2 ≤ h.data.length
      · have hlen' : 2 ≤ h.length := hlen
        have hnd : ¬ ∃ x ∈ h.data.drop (h.length - 1), isDigitC x = true := by
          simpa using allLetters_drop_no_digit hall (h.length - 1)
        simp [normalizeHv, hsplit, hL, hr, hlen, hlen', hnd]
      · have hlen' : ¬ 2 ≤ h.length := hlen
        simp [normalizeHv, hsplit, hL, hr, hlen, hlen']
    · by_cases hd : (h.data.drop (h.data.takeWhile isLetterC).length).any isDigitC = true
      · simp [normalizeHv, hsplit, hL, hr, hd]
      · simp [normalizeHv, hsplit, hL, hr, hd]

/-- C7 witness: the general split rule applied to the token `xcpng82`. -/
theorem C7_normalizer_witness :
    normalizeHv (some "xcpng82") none =
      (some ⟨"xcpng82".data.takeWhile isLetterC⟩,
        some ⟨"xcpng82".data.drop ("xcpng82".data.takeWhile isLetterC).length⟩) :=
  (C7_normalizer.2.2.2.2.2.2 "xcpng82" (by decide)).2 (by decide)

/-- C8 counterexample: in `"Coverage: 85% Decreased by 2.1%"` the phrase
pattern matches case-insensitively but the negation test compares the
captured word case-sensitively against `'decreased'`, so the code takes
`parseFloat("Decreased")` and stores `NaN` — neither the negated nor the
plain magnitude the claim prescribes. -/
theorem C8_counterexample :
    extractCoverage "Coverage: 85% Decreased by 2.1%" 5 =
      some ⟨⟨85, 0⟩, .nan, "https://app.codecov.io/gh/apache/cloudstack/pull/5"⟩ ∧
    JFloat.nan ≠ JFloat.val ⟨-21, 1⟩ ∧ JFloat.nan ≠ JFloat.val ⟨21, 1⟩ := by decide

/-- C8 (amended): `extractCoverage` returns null exactly when no
`(\d+\.?\d*)%` token occurs in the body; otherwise the fact holds the
first such percentage; the change comes from the first signed `%` token
when one exists, else from the `(increased|decreased) by N%` phrase —
negated only when the captured word is exactly the lowercase
`decreased` and `NaN` for any other casing — else defaults to 0; the URL
is the first codecov.io URL in the body, with the constructed canonical
PR URL as fallback; the scenario body yields 85.23, +2.1 and its own
URL. -/
theorem C8_amended :
    (∀ body pr, extractCoverage body pr = none ↔ scanFor pctAt body.data = none) ∧
    (∀ body pr d f, scanFor signedPctAt body.data = some d →
      extractCoverage body pr = some f → f.change = .val d) ∧
    (∀ body pr f, scanFor codecovUrlAt body.data = none →
      extractCoverage body pr = some f →
      f.url = "https://app.codecov.io/gh/apache/cloudstack/pull/" ++ toString pr) ∧
    extractCoverage "Coverage: 85.23% (+2.1%) https://app.codecov.io/gh/apache/cloudstack/pull/123" 123 =
      some ⟨⟨8523, 2⟩, .val ⟨21, 1⟩, "https://app.codecov.io/gh/apache/cloudstack/pull/123"⟩ ∧
    extractCoverage "Coverage: 85% decreased by 2.1%" 5 =
      some ⟨⟨85, 0⟩, .val ⟨-21, 1⟩, "https://app.codecov.io/gh/apache/cloudstack/pull/5"⟩ ∧
    extractCoverage "Coverage: 85% increased by 1.5%" 5 =
      some ⟨⟨85, 0⟩, .val ⟨15, 1⟩, "https://app.codecov.io/gh/apache/cloudstack/pull/5"⟩ ∧
    extractCoverage "Coverage: 85%" 7 =
      some ⟨⟨85, 0⟩, .val ⟨0, 0⟩, "https://app.codecov.io/gh/apache/cloudstack/pull/7"⟩ := by
  refine ⟨fun body pr => ?_, fun body pr d f hd hf => ?_, fun body pr f hu hf => ?_,
    by decide, by decide, by decide, by decide⟩
  · unfold extractCoverage
    cases hp : scanFor pctAt body.data <;> simp [hp]
  · unfold extractCoverage at hf
    cases hp : scanFor pctAt body.data <;> simp [hp, hd] at hf
    obtain ⟨h1, rfl⟩ := hf
    rfl
  · unfold extractCoverage at hf
    cases hp : scanFor pctAt body.data <;> simp [hp, hu] at hf
    obtain ⟨h1, rfl⟩ := hf
    rfl

/-- C8 amended, witness: the signed-token rule on the scenario body and
the fallback-URL rule on a body with no codecov URL. -/
theorem C8_amended_witness :
    (⟨⟨8523, 2⟩, .val ⟨21, 1⟩, "https://app.codecov.io/gh/apache/cloudstack/pull/123"⟩ :
        CoverageFact).change = .val ⟨21, 1⟩ ∧
    (⟨⟨85, 0⟩, .val ⟨0, 0⟩, "https://app.codecov.io/gh/apache/cloudstack/pull/7"⟩ :
        CoverageFact).url = "https://app.codecov.io/gh/apache/cloudstack/pull/" ++ toString 7 :=
  ⟨C8_amended.2.1 "Coverage: 85.23% (+2.1%) https://app.codecov.io/gh/apache/cloudstack/pull/123"
      123 ⟨21, 1⟩ _ (by decide) (by decide),
    C8_amended.2.2.1 "Coverage: 85%" 7 _ (by decide) (by decide)⟩

theorem map_pr_filter (l : List TestResultRow) (p : Nat) :
    ((l.filter fun r => decide (r.pr_number ≠ p)).map fun r => r.pr_number) =
      ((l.map fun r => r.pr_number).filter fun q => decide (q ≠ p)) := by
  induction l with
  | nil => rfl
  | cons a l ih => by_cases h : a.pr_number = p <;> simp [h] <;> simpa using ih

/-- C4 counterexample: the per-PR endpoint and the recent-failures site
both label `test_x` in PR 1 common (2 other PRs), yet the common-failures
listing — `HAVING pr_count > 2` over `(test_name, test_file)` groups —
contains `test_x` under neither file, so the three sites do not agree on
one threshold over the other-PR count. -/
theorem C4_counterexample :
    (classifyFailure c4recs "test_x" 1).is_common = true ∧
    recentIsCommon c4recs "test_x" 1 = true ∧
    countOtherPRs c4recs "test_x" 1 = 2 ∧
    commonListed c4recs "test_x" "a.py" = false ∧
    commonListed c4recs "test_x" "b.py" = false := by decide

/-- C4 (amended): the per-PR endpoint and the summary's recent-failures
site use the identical criterion (at least 2 distinct other PRs with the
same test name); the common-failures listing instead filters
`(test_name, test_file)` groups by total distinct PR count `> 2`, which
coincides with the other two exactly when every record of the test shares
one test file and the classified PR has such a record — and can disagree
otherwise. -/
theorem C4_amended :
    (∀ recs t p, (classifyFailure recs t p).is_common = recentIsCommon recs t p) ∧
    (∀ (recs : List TestResultRow) t f p, (⟨p, t, f⟩ : TestResultRow) ∈ recs →
      (∀ r ∈ recs, r.test_name = t → r.test_file = f) →
      commonListed recs t f = (classifyFailure recs t p).is_common) := by
  refine ⟨fun recs t p => rfl, fun recs t f p hmem hsingle => ?_⟩
  have hA : (recs.filter fun r => decide (r.test_name = t ∧ r.test_file = f)) =
      recs.filter fun r => decide (r.test_name = t) := by
    apply List.filter_congr
    intro r hr
    by_cases hn : r.test_name = t
    · simp [hn, hsingle r hr hn]
    · simp [hn]
  have hB : (recs.filter fun r => decide (r.test_name = t ∧ r.pr_number ≠ p)) =
      (recs.filter fun r => decide (r.test_name = t)).filter fun r => decide (r.pr_number ≠ p) := by
    rw [List.filter_filter]
    apply List.filter_congr
    intro r _
    by_cases hn : r.test_name = t <;> by_cases hp : r.pr_number = p <;> simp [hn, hp]
  have hpS : p ∈ (recs.filter fun r => decide (r.test_name = t)).map fun r => r.pr_number := by
    refine List.mem_map.mpr ⟨⟨p, t, f⟩, ?_, rfl⟩
    exact List.mem_filter.mpr ⟨hmem, by simp⟩
  have hpF :
      p ∈ ((recs.filter fun r => decide (r.test_name = t)).map fun r => r.pr_number).toFinset :=
    List.mem_toFinset.mpr hpS
  have hgroup : groupPRCount recs t f =
      (((recs.filter fun r => decide (r.test_name = t)).map fun r => r.pr_number).toFinset).card := by
    rw [groupPRCount, hA, List.card_toFinset]
  have hother : countOtherPRs recs t p =
      ((((recs.filter fun r => decide (r.test_name = t)).map fun r =>
        r.pr_number).toFinset).erase p).card := by
    rw [countOtherPRs, hB, map_pr_filter, ← List.card_toFinset]
    simp [List.toFinset_filter, Finset.filter_ne']
  show commonListed recs t f = (classifyFailure recs t p).is_common
  unfold commonListed classifyFailure
  dsimp only
  rw [hgroup, hother, Finset.card_erase_of_mem hpF]
  have hpos : 1 ≤
      (((recs.filter fun r => decide (r.test_name = t)).map fun r => r.pr_number).toFinset).card :=
    Finset.card_pos.mpr ⟨p, hpF⟩
  exact decide_eq_decide.mpr (by omega)

/-- C4 amended, witness: with one shared test file, the common-failures
listing and the per-PR classification agree. -/
theorem C4_amended_witness :
    commonListed c4single "test_x" "f.py" = (classifyFailure c4single "test_x" 1).is_common :=
  C4_amended.2 c4single "test_x" "f.py" 1 (by decide) (by decide)

